import Mathlib

/-!
Verification development for the OpenBase codebase-quality benchmarking CLI
(`main.py` + `benchmarks/*`).

The Python sources are shallowly embedded: pure score computations become Lean
functions over `ℚ` (Python floats are modelled as exact rationals), Python
dicts become association lists `List (String × α)` in insertion order, and the
filesystem / AST views that the scorers consume become explicit inductive data
(`SizeFile`, `RadFile`, `PyFile`, ...).  External tools (scipy, lizard,
pyinstrument) are modelled as oracle inputs, mirroring the spec's description
of them as external-tool shims.
-/

/- ------------------------------------------------------------------ -/
/- Generic dictionary helpers (Python `dict` as association list)      -/
/- ------------------------------------------------------------------ -/

/-- Python `d.get(k, default)` on an association list. -/
def lookupD (d : List (String × ℚ)) (k : String) (v : ℚ) : ℚ :=
  (d.lookup k).getD v

/-- Python `d[k] = v`: overwrite in place if the key exists (keeping its
position), otherwise append at the end. -/
def dictInsert {α : Type} (d : List (String × α)) (k : String) (v : α) :
    List (String × α) :=
  if (d.lookup k).isSome then
    d.map (fun p => if p.1 = k then (k, v) else p)
  else d ++ [(k, v)]

/-- Python `d.update(other)` as a left fold of single-key insertions. -/
def dictUpdate {α : Type} (d other : List (String × α)) : List (String × α) :=
  other.foldl (fun acc p => dictInsert acc p.1 p.2) d

/- ------------------------------------------------------------------ -/
/- benchmarks/stats_utils.py                                           -/
/- ------------------------------------------------------------------ -/

/-- View of one file as `get_codebase_size_bucket` consumes it: either the
`open`/read raises (`UnicodeDecodeError`/`IOError`, the file is skipped) or it
yields a list of text lines. -/
inductive SizeFile where
  | unreadable
  | readable (lines : List String)

/-- Python truthiness of `line.strip()`: a line counts iff it has a
non-whitespace character. -/
def lineNonEmpty (s : String) : Bool :=
  !(s.data.all (fun c => c.isWhitespace))

/-- Embedding of `_count_non_empty_lines` (stats_utils.py line 9): count the
lines whose `strip()` is truthy. -/
def _count_non_empty_lines (lines : List String) : ℕ :=
  (lines.filter lineNonEmpty).length

/-- Embedding of `_clamp_max` (stats_utils.py line 14). -/
def _clamp_max (value max_value : ℚ) : ℚ :=
  if value ≤ max_value then value else max_value

/-- Total non-blank line count of `get_codebase_size_bucket`'s loop:
unreadable files are skipped by the `except` clause. -/
def totalLoc (files : List SizeFile) : ℕ :=
  files.foldl
    (fun acc f =>
      match f with
      | SizeFile.unreadable => acc
      | SizeFile.readable lines => acc + _count_non_empty_lines lines)
    0

/-- Embedding of `get_codebase_size_bucket` (stats_utils.py lines 19-39), with
the codebase given as the list of its Python files' readability outcomes. -/
def get_codebase_size_bucket (files : List SizeFile) : String :=
  let total_loc := totalLoc files
  if total_loc < 100 then "small"
  else if total_loc < 1000 then "medium"
  else "large"

/-- Python `max(scores.values())`; the empty case (where Python would raise
`ValueError`) is unreachable behind the `len(scores) < 2` guard and is mapped
to `0`. -/
def maxVal : List (String × ℚ) → ℚ
  | [] => 0
  | p :: rest => rest.foldl (fun m q => max m q.2) p.2

/-- Embedding of `normalize_scores_zscore` (stats_utils.py lines 42-64):
identity for fewer than two entries; if the maximal value exceeds 15.0,
values above 10.0 are compressed to `10 + (v - 10) * 0.3`; otherwise the
original dict is returned. -/
def normalize_scores_zscore (scores : List (String × ℚ)) : List (String × ℚ) :=
  if scores.length < 2 then scores
  else
    let max_score := maxVal scores
    if 15 < max_score then
      scores.map (fun p => if 10 < p.2 then (p.1, 10 + (p.2 - 10) * (3 / 10)) else p)
    else scores

/-- Value-level compression applied by `normalize_scores_zscore` in its
outlier branch. -/
def compressVal (x : ℚ) : ℚ :=
  if 10 < x then 10 + (x - 10) * (3 / 10) else x

/-- Embedding of `adjust_score_for_size` (stats_utils.py lines 81-103): size
multiplier per metric type, then clamp at 10. -/
def adjust_score_for_size (raw_score : ℚ) (bucket metric_type : String) : ℚ :=
  let multiplier : ℚ :=
    if metric_type = "maintainability" then
      if bucket = "small" then 3 / 2
      else if bucket = "medium" then 1
      else if bucket = "large" then 9 / 10
      else 1
    else if metric_type = "readability" then
      if bucket = "small" then 6 / 5
      else if bucket = "medium" then 1
      else if bucket = "large" then 19 / 20
      else 1
    else
      if bucket = "small" then 11 / 10
      else if bucket = "medium" then 1
      else if bucket = "large" then 1
      else 1
  _clamp_max (raw_score * multiplier) 10

/-- Embedding of `calculate_confidence_interval` (stats_utils.py lines 67-78):
the `len < 2` guard is the source's; the scipy t-interval computation on two
or more samples is an external numeric routine, supplied as the oracle
`tInterval`. -/
def calculate_confidence_interval (scores : List ℚ)
    (tInterval : List ℚ → ℚ × ℚ) : ℚ × ℚ :=
  if scores.length < 2 then (0, 0) else tInterval scores

/-- Values stored in a `raw_metrics` dict (`Dict[str, Any]` in the source):
the benchmarks store numbers, strings and lists of numbers. -/
inductive MetricValue where
  | num (q : ℚ)
  | str (s : String)
  | numList (qs : List ℚ)
deriving DecidableEq

/-- Embedding of the `BenchmarkResult` value object (stats_utils.py
lines 106-123). -/
structure BenchmarkResult where
  score : ℚ
  details : List String
  raw_metrics : List (String × MetricValue)
  confidence_interval : ℚ × ℚ
deriving DecidableEq

/-- Embedding of `BenchmarkResult.__init__`: `raw_metrics or {}` and
`confidence_interval or (score, score)` replace a missing (`None`) argument by
the default. -/
def BenchmarkResult.make (score : ℚ) (details : List String)
    (raw_metrics : Option (List (String × MetricValue)))
    (confidence_interval : Option (ℚ × ℚ)) : BenchmarkResult :=
  { score := score
    details := details
    raw_metrics := raw_metrics.getD []
    confidence_interval := confidence_interval.getD (score, score) }

/-- Embedding of `BenchmarkResult.__iter__`: tuple unpacking yields
`(score, details)`. -/
def BenchmarkResult.toPair (r : BenchmarkResult) : ℚ × List String :=
  (r.score, r.details)

/- ------------------------------------------------------------------ -/
/- main.py: registered benchmarks and the compare scoring loop         -/
/- ------------------------------------------------------------------ -/

/-- Embedding of `BUILT_IN_MODULES` (main.py lines 40-51), by module name. -/
def BUILT_IN_MODULES : List String :=
  ["readability", "maintainability", "performance", "testability",
   "robustness", "security", "scalability", "documentation", "consistency",
   "git_health"]

/-- Embedding of the weighting loop of the `compare` command (main.py
lines 658-668): fold over `benchmarks_to_run`, adding
`normalized_scores.get(name, 0.0) * benchmark_weights.get(name, 1.0)` into the
running totals of both codebases. -/
def compareTotals (benchmarks_to_run : List String)
    (benchmark_weights norm1 norm2 : List (String × ℚ)) : ℚ × ℚ :=
  benchmarks_to_run.foldl
    (fun acc name =>
      let weight := lookupD benchmark_weights name 1
      (acc.1 + lookupD norm1 name 0 * weight,
       acc.2 + lookupD norm2 name 0 * weight))
    (0, 0)

/-- Embedding of the score pipeline of `compare` (main.py lines 642-668): the
raw score dicts are passed through `normalize_scores_zscore` first, and the
weighted totals are computed from the normalized dicts. -/
def compareScores (benchmarks_to_run : List String)
    (benchmark_weights raw_scores1 raw_scores2 : List (String × ℚ)) : ℚ × ℚ :=
  let normalized_scores1 := normalize_scores_zscore raw_scores1
  let normalized_scores2 := normalize_scores_zscore raw_scores2
  compareTotals benchmarks_to_run benchmark_weights normalized_scores1
    normalized_scores2

/-- Closed-form weighted total: sum over the benchmark names of normalized
score times weight (weight defaulting to 1). -/
def weightedTotal (norm weights : List (String × ℚ))
    (names : List String) : ℚ :=
  (names.map (fun n => lookupD norm n 0 * lookupD weights n 1)).sum

/- ------------------------------------------------------------------ -/
/- Spec-side definition: z-score standardization with clipping         -/
/- ------------------------------------------------------------------ -/

/-- Arithmetic mean of a list of rationals. -/
def listMean (l : List ℚ) : ℚ := l.sum / l.length

/-- Clamp `x` into the interval `[lo, hi]`. -/
def clampQ (lo hi x : ℚ) : ℚ := max lo (min hi x)

/-- Modelled from the spec's words "normalizes scores (z-score clipping)", for
comparison with the source's `normalize_scores_zscore`.  An output dict is a
z-score clipped normalization of the input if it arises, for some positive
scale `σ` (sample or population standard deviation) and positive clip bound,
either by clipping the standardized values `(v - mean) / σ`, or by winsorizing
the raw values at symmetric bounds `mean ± b` around the mean. -/
def IsZScoreClippedOf (input output : List (String × ℚ)) : Prop :=
  (∃ σ clip : ℚ, 0 < σ ∧ 0 < clip ∧
    output = input.map (fun p =>
      (p.1, clampQ (-clip) clip
        ((p.2 - listMean (input.map (fun q => q.2))) / σ)))) ∨
  (∃ b : ℚ, 0 < b ∧
    output = input.map (fun p =>
      (p.1, clampQ (listMean (input.map (fun q => q.2)) - b)
        (listMean (input.map (fun q => q.2)) + b) p.2)))

/- ------------------------------------------------------------------ -/
/- benchmarks/readability.py                                           -/
/- ------------------------------------------------------------------ -/

/-- One function as reported by radon's `ComplexityVisitor`. -/
structure RadFunc where
  name : String
  lineno : ℕ
  complexity : ℕ

/-- View of one file as `_analyze_python_file` consumes it: the read can fail
(`OSError`), the radon parse can fail (`SyntaxError`/`ValueError`), or the
visitor yields the file's functions. -/
inductive RadFile where
  | readError (path msg : String)
  | parseError (path msg : String)
  | parsed (path : String) (funcs : List RadFunc)

/-- Embedding of `_analyze_python_file` (readability.py lines 12-57): returns
(messages, complexity total, function count) for one file; failed reads and
parses contribute a message and zero counts, and functions of complexity
above 10 are reported in visit order. -/
def _analyze_python_file : RadFile → List String × ℕ × ℕ
  | RadFile.readError path msg =>
      (["Could not read " ++ path ++ ": " ++ msg], 0, 0)
  | RadFile.parseError path msg =>
      (["Could not parse " ++ path ++ ": " ++ msg], 0, 0)
  | RadFile.parsed path funcs =>
      ((funcs.filter (fun f => 10 < f.complexity)).map
        (fun f => "High complexity (" ++ toString f.complexity
          ++ ") in function " ++ f.name ++ " at " ++ path ++ ":"
          ++ toString f.lineno),
       funcs.foldl (fun a f => a + f.complexity) 0,
       funcs.length)

/-- Embedding of `assess_readability` (readability.py lines 60-111).  The
PEP8 violation count produced by the pycodestyle shim is an external tool
output, passed in as `pep8_errors`; the float formatting of the source's
summary lines is abstracted to exact rational components. -/
def assess_readability (files : List RadFile) (pep8_errors : ℕ) :
    ℚ × List String :=
  if files.isEmpty then (0, ["No Python files found."])
  else
    let acc := files.foldl
      (fun acc f =>
        let r := _analyze_python_file f
        (acc.1 ++ r.1, acc.2.1 + r.2.1, acc.2.2 + r.2.2))
      ([], 0, 0)
    let total_complexity := acc.2.1
    let total_functions := acc.2.2
    let average_complexity : ℚ :=
      if 0 < total_functions then (total_complexity : ℚ) / total_functions
      else 0
    let complexity_score : ℚ := max 0 (10 - (average_complexity - 5))
    let details := acc.1 ++
      ["Average cyclomatic complexity: " ++ toString average_complexity.num
        ++ "/" ++ toString average_complexity.den]
    let details := details ++
      ["Found " ++ toString pep8_errors ++ " PEP8 style violations."]
    let pep8_score : ℚ := max 0 (10 - (pep8_errors : ℚ) / 5)
    let readability_score := (3 / 5) * complexity_score + (2 / 5) * pep8_score
    (min 10 (max 0 readability_score), details)

/- ------------------------------------------------------------------ -/
/- benchmarks/utils.py: the AST view shared by the scorers             -/
/- ------------------------------------------------------------------ -/

/-- The `type` expression of an `ast.ExceptHandler`: absent (bare `except:`),
a plain `ast.Name` with its identifier, or any other expression (tuple,
attribute, call, ...). -/
inductive ExceptType where
  | bare
  | nameId (id : String)
  | nonName

/-- The AST nodes yielded by `ast.walk`, restricted to the node kinds the
scorers inspect; every other node kind is `otherNode`.  Function, async
function and class definitions carry the `ast.get_docstring` result. -/
inductive AstNode where
  | importNode (names : List String)
  | importFrom (module : Option String)
  | functionDef (name : String) (lineno : ℕ) (docstring : Option String)
  | asyncFunctionDef (name : String) (lineno : ℕ) (docstring : Option String)
  | classDef (name : String) (lineno : ℕ) (docstring : Option String)
  | exceptHandler (lineno : ℕ) (etype : ExceptType)
  | otherNode

/-- A parsed module: its `ast.get_docstring` result and the nodes `ast.walk`
yields below the module node. -/
structure PyModule where
  docstring : Option String
  nodes : List AstNode

/-- View of one file as `parse_file` (utils.py) delivers it: `None` on
syntax/decoding errors, or the parsed module tree. -/
inductive PyFile where
  | unparsed (path : String)
  | parsed (path : String) (tree : PyModule)

/- ------------------------------------------------------------------ -/
/- benchmarks/documentation.py                                         -/
/- ------------------------------------------------------------------ -/

/-- Python `str.splitlines` on a character list: line boundaries are
`\r\n`, `\n` and `\r`; a trailing boundary produces no empty final line. -/
def splitlinesAux : List Char → List Char → List (List Char)
  | [], acc => if acc.isEmpty then [] else [acc.reverse]
  | '\r' :: '\n' :: rest, acc => acc.reverse :: splitlinesAux rest []
  | '\n' :: rest, acc => acc.reverse :: splitlinesAux rest []
  | '\r' :: rest, acc => acc.reverse :: splitlinesAux rest []
  | c :: rest, acc => splitlinesAux rest (c :: acc)

/-- Python `ds.splitlines()`. -/
def splitlines (s : String) : List (List Char) := splitlinesAux s.data []

/-- Python falsiness of `ln.strip()`: the line is blank iff every character
is whitespace. -/
def isBlankChars (l : List Char) : Bool := l.all (fun c => c.isWhitespace)

/-- The consecutive-blank-line scan of `_good_docstring`: walk the lines with
a counter, reporting true as soon as more than 5 consecutive blank lines are
seen. -/
def excessiveBlanksAux : List (List Char) → ℕ → Bool
  | [], _ => false
  | ln :: rest, k =>
      if isBlankChars ln then
        if 5 < k + 1 then true else excessiveBlanksAux rest (k + 1)
      else excessiveBlanksAux rest 0

/-- Python `pat in s` substring containment on character lists. -/
def isInfixChars (pat : List Char) : List Char → Bool
  | [] => pat.isEmpty
  | c :: rest => List.isPrefixOf pat (c :: rest) || isInfixChars pat rest

/-- Embedding of `_good_docstring` (documentation.py lines 93-139): at least
3 non-blank lines, no more than 5 consecutive blank lines, and the lowercased
text must contain an argument-section marker and a returns-section marker. -/
def _good_docstring (ds : String) : Bool :=
  let raw_lines := splitlines ds
  let non_blank_count := (raw_lines.filter (fun ln => !(isBlankChars ln))).length
  if non_blank_count < 3 then false
  else if excessiveBlanksAux raw_lines 0 then false
  else
    let lowered := ds.data.map Char.toLower
    let has_args := isInfixChars "args:".data lowered
      || isInfixChars "parameters:".data lowered
    let has_returns := isInfixChars "returns:".data lowered
    has_args && has_returns

/-- The documentable entities among walked nodes (`isinstance(node,
(ast.FunctionDef, ast.AsyncFunctionDef, ast.ClassDef))`), with name, line and
docstring. -/
def nodeEntity : AstNode → Option (String × ℕ × Option String)
  | AstNode.functionDef n l d => some (n, l, d)
  | AstNode.asyncFunctionDef n l d => some (n, l, d)
  | AstNode.classDef n l d => some (n, l, d)
  | _ => none

/-- Just the docstring slot of a documentable entity node. -/
def entityDs : AstNode → Option (Option String)
  | AstNode.functionDef _ _ d => some d
  | AstNode.asyncFunctionDef _ _ d => some d
  | AstNode.classDef _ _ d => some d
  | _ => none

/-- Accumulator of `assess_documentation`'s loop. -/
structure DocAcc where
  total_entities : ℕ
  documented_entities : ℕ
  good_docstrings : ℕ
  details : List String

/-- One walked node of `assess_documentation`'s inner loop: documentable
entities are counted, their docstring presence and quality tallied, and
missing docstrings reported. -/
def docEntityStep (file_path : String) (acc : DocAcc) (node : AstNode) :
    DocAcc :=
  match nodeEntity node with
  | none => acc
  | some (name, lineno, ds) =>
      let acc1 : DocAcc := { acc with total_entities := acc.total_entities + 1 }
      match ds with
      | some d =>
          { acc1 with
            documented_entities := acc1.documented_entities + 1,
            good_docstrings :=
              acc1.good_docstrings + (if _good_docstring d then 1 else 0) }
      | none =>
          { acc1 with
            details := acc1.details ++
              ["Missing docstring for " ++ name ++ " in " ++ file_path ++ ":"
                ++ toString lineno] }

/-- One file of `assess_documentation`'s outer loop: unparseable files are
skipped; a parsed file contributes its module docstring entity and then its
walked entities. -/
def docFileStep (acc : DocAcc) : PyFile → DocAcc
  | PyFile.unparsed _ => acc
  | PyFile.parsed path tree =>
      let acc1 : DocAcc := { acc with total_entities := acc.total_entities + 1 }
      let acc2 : DocAcc :=
        match tree.docstring with
        | some d =>
            { acc1 with
              documented_entities := acc1.documented_entities + 1,
              good_docstrings :=
                acc1.good_docstrings + (if _good_docstring d then 1 else 0) }
        | none =>
            { acc1 with
              details := acc1.details ++ ["Missing docstring in module: " ++ path] }
      tree.nodes.foldl (docEntityStep path) acc2

/-- Embedding of `assess_documentation` (documentation.py lines 6-87).  The
float formatting of the two summary lines is abstracted to the exact
counts. -/
def assess_documentation (files : List PyFile) : ℚ × List String :=
  if files.isEmpty then (0, ["No Python files found."])
  else
    let acc := files.foldl docFileStep ⟨0, 0, 0, []⟩
    if acc.total_entities = 0 then
      (0, ["No documentable entities (classes, functions) found."])
    else
      let doc_coverage : ℚ :=
        ((acc.documented_entities : ℚ) / acc.total_entities) * 100
      let quality_ratio : ℚ :=
        if acc.documented_entities = 0 then 0
        else (acc.good_docstrings : ℚ) / acc.documented_entities
      let coverage_score := doc_coverage / 10
      let intrinsic_quality_score := quality_ratio * 10
      let final_score := (coverage_score + intrinsic_quality_score) / 2
      let details :=
        ("Documentation coverage: " ++ toString acc.documented_entities
            ++ "/" ++ toString acc.total_entities)
          :: ("Good docstrings: " ++ toString acc.good_docstrings ++ "/"
            ++ toString acc.documented_entities)
          :: acc.details
      (min 10 (max 0 final_score), details)

/-- Count of documentable entities over a codebase: one module entity per
parsed file plus its walked entities. -/
def docTotalOf (files : List PyFile) : ℕ :=
  (files.map (fun f =>
    match f with
    | PyFile.unparsed _ => 0
    | PyFile.parsed _ t => 1 + (t.nodes.filterMap entityDs).length)).sum

/-- Count of documented entities over a codebase. -/
def docDocumentedOf (files : List PyFile) : ℕ :=
  (files.map (fun f =>
    match f with
    | PyFile.unparsed _ => 0
    | PyFile.parsed _ t =>
        (if t.docstring.isSome then 1 else 0)
          + ((t.nodes.filterMap entityDs).filter (fun d => d.isSome)).length)).sum

/-- Count of docstrings passing `_good_docstring` over a codebase. -/
def docGoodOf (files : List PyFile) : ℕ :=
  (files.map (fun f =>
    match f with
    | PyFile.unparsed _ => 0
    | PyFile.parsed _ t =>
        (match t.docstring with
         | some d => if _good_docstring d then 1 else 0
         | none => 0)
          + ((t.nodes.filterMap entityDs).filter (fun d =>
              match d with
              | some dd => _good_docstring dd
              | none => false)).length)).sum

/-- Per-node documentable entity count. -/
def entTotalCount (n : AstNode) : ℕ :=
  match entityDs n with
  | some _ => 1
  | none => 0

/-- Per-node documented entity count. -/
def entDocCount (n : AstNode) : ℕ :=
  match entityDs n with
  | some (some _) => 1
  | _ => 0

/-- Per-node good docstring count. -/
def entGoodCount (n : AstNode) : ℕ :=
  match entityDs n with
  | some (some d) => if _good_docstring d then 1 else 0
  | _ => 0

/- ------------------------------------------------------------------ -/
/- benchmarks/robustness.py                                            -/
/- ------------------------------------------------------------------ -/

/-- Detection of a `logging` import on one walked node: `import logging` via
an alias named exactly "logging", or `from logging import ...`. -/
def nodeImportsLogging : AstNode → Bool
  | AstNode.importNode names => names.contains "logging"
  | AstNode.importFrom m => m == some "logging"
  | _ => false

/-- The `ExceptHandler` payload of a walked node, if any. -/
def handlerOf : AstNode → Option ExceptType
  | AstNode.exceptHandler _ et => some et
  | _ => none

/-- A handler is specific ("good") iff it has a type expression that is not
the plain name `Exception`. -/
def isGoodHandler : ExceptType → Bool
  | ExceptType.bare => false
  | ExceptType.nameId i => !(i == "Exception")
  | ExceptType.nonName => true

/-- Accumulator of the robustness analysis (per file and per codebase). -/
structure RbAcc where
  uses_logging : Bool
  total_handlers : ℕ
  good_handlers : ℕ
  details : List String

/-- One walked node of `_analyze_file_ast`: record logging imports, count
exception handlers, and classify them as specific, generic `Exception`, or
bare. -/
def rbNodeStep (file_path : String) (acc : RbAcc) (node : AstNode) : RbAcc :=
  let acc := if nodeImportsLogging node then { acc with uses_logging := true }
    else acc
  match node with
  | AstNode.exceptHandler lineno t =>
      let acc1 : RbAcc := { acc with total_handlers := acc.total_handlers + 1 }
      match t with
      | ExceptType.bare =>
          { acc1 with
            details := acc1.details ++
              ["Bare except used in " ++ file_path ++ ":" ++ toString lineno] }
      | ExceptType.nameId i =>
          if i = "Exception" then
            { acc1 with
              details := acc1.details ++
                ["Generic except Exception used in " ++ file_path ++ ":"
                  ++ toString lineno] }
          else { acc1 with good_handlers := acc1.good_handlers + 1 }
      | ExceptType.nonName =>
          { acc1 with good_handlers := acc1.good_handlers + 1 }
  | _ => acc

/-- Embedding of `_analyze_file_ast` (robustness.py lines 25-67): a single
walk over the file's nodes. -/
def _analyze_file_ast (nodes : List AstNode) (file_path : String) : RbAcc :=
  nodes.foldl (rbNodeStep file_path) ⟨false, 0, 0, []⟩

/-- One file of `assess_robustness`'s loop: files without an AST are skipped
with a note; parsed files contribute their analysis results. -/
def rbFileStep (acc : RbAcc) : PyFile → RbAcc
  | PyFile.unparsed path =>
      { acc with
        details := acc.details ++
          ["No AST produced for " ++ path ++ "; file skipped."] }
  | PyFile.parsed path tree =>
      let r := _analyze_file_ast tree.nodes path
      { uses_logging := acc.uses_logging || r.uses_logging,
        total_handlers := acc.total_handlers + r.total_handlers,
        good_handlers := acc.good_handlers + r.good_handlers,
        details := acc.details ++ r.details }

/-- Python `details.insert(1, s)`. -/
def insertSecond (s : String) : List String → List String
  | [] => [s]
  | h :: t => h :: s :: t

/-- Embedding of `assess_robustness` (robustness.py lines 70-141).  The
float formatting of the handler-quality summary is abstracted to the exact
counts. -/
def assess_robustness (files : List PyFile) : ℚ × List String :=
  if files.isEmpty then (0, ["No Python files found."])
  else
    let acc := files.foldl rbFileStep ⟨false, 0, 0, []⟩
    let details :=
      (if acc.uses_logging then "Codebase appears to use the logging module."
       else "Codebase does not appear to use the logging module.")
        :: acc.details
    if acc.total_handlers = 0 then
      ((if acc.uses_logging then 5 else 2), details)
    else
      let handler_quality : ℚ := (acc.good_handlers : ℚ) / acc.total_handlers
      let handler_score0 := handler_quality * 8
      let handler_score :=
        if acc.uses_logging then handler_score0 + 2 else handler_score0
      let details := insertSecond
        ("Error handling quality: " ++ toString acc.good_handlers ++ "/"
          ++ toString acc.total_handlers ++ " specific handlers") details
      (min 10 (max 0 handler_score), details)

/-- Per-node handler count. -/
def nodeHandlerCount (n : AstNode) : ℕ :=
  match handlerOf n with
  | some _ => 1
  | none => 0

/-- Per-node specific-handler count. -/
def nodeGoodCount (n : AstNode) : ℕ :=
  match handlerOf n with
  | some et => if isGoodHandler et then 1 else 0
  | none => 0

/-- Total exception handler count over a codebase's parsed files. -/
def rbTotalOf (files : List PyFile) : ℕ :=
  (files.map (fun f =>
    match f with
    | PyFile.unparsed _ => 0
    | PyFile.parsed _ t => (t.nodes.filterMap handlerOf).length)).sum

/-- Specific exception handler count over a codebase's parsed files. -/
def rbGoodOf (files : List PyFile) : ℕ :=
  (files.map (fun f =>
    match f with
    | PyFile.unparsed _ => 0
    | PyFile.parsed _ t =>
        ((t.nodes.filterMap handlerOf).filter isGoodHandler).length)).sum

/-- Whether some parsed file of the codebase imports `logging`. -/
def rbUsesLoggingOf (files : List PyFile) : Bool :=
  files.any (fun f =>
    match f with
    | PyFile.unparsed _ => false
    | PyFile.parsed _ t => t.nodes.any nodeImportsLogging)

/- ------------------------------------------------------------------ -/
/- benchmarks/performance.py                                           -/
/- ------------------------------------------------------------------ -/

/-- External-world inputs of `assess_performance`: the outputs of the
static-analysis shim (lizard + anti-pattern scan), the `BENCH_PROFILE_SCRIPT`
environment variable (present only when the path exists), the outputs of the
dynamic pyinstrument/memory-profiler shim, the file contents read by
`get_codebase_size_bucket`, and the scipy t-interval routine. -/
structure PerfEnv where
  staticScore : ℚ
  staticDetails : List String
  profileScript : Option String
  dynamicScore : ℚ
  dynamicDetails : List String
  runtimeMetrics : List (String × MetricValue)
  sizeFiles : List SizeFile
  tInterval : List ℚ → ℚ × ℚ

/-- Tail of `assess_performance` (performance.py lines 49-70): size-bucket
bias adjustment, raw-metric bookkeeping and the confidence interval over the
score samples. -/
def perfFinish (env : PerfEnv) (details : List String)
    (raw_metrics : List (String × MetricValue)) (final_score : ℚ) :
    BenchmarkResult :=
  let size_bucket := get_codebase_size_bucket env.sizeFiles
  let adjusted_score := adjust_score_for_size final_score size_bucket "performance"
  let rm := dictInsert
    (dictInsert raw_metrics "size_bucket" (MetricValue.str size_bucket))
    "unadjusted_score" (MetricValue.num final_score)
  let score_samples := env.staticScore ::
    (match rm.lookup "execution_times" with
     | some (MetricValue.numList ts) => ts
     | _ => [])
  let confidence_interval := calculate_confidence_interval score_samples env.tInterval
  BenchmarkResult.make adjusted_score details (some rm) (some confidence_interval)

/-- Embedding of `assess_performance` (performance.py lines 19-70): empty
codebases return score 0 immediately; otherwise static analysis always
contributes, dynamic analysis only when a profile script is configured, and
the combined score is bias-adjusted. -/
def assess_performance (env : PerfEnv) (python_files : List String) :
    BenchmarkResult :=
  if python_files.isEmpty then
    BenchmarkResult.make 0 ["No Python files found."] none none
  else
    let details := env.staticDetails
    let raw_metrics := dictInsert [] "static_score" (MetricValue.num env.staticScore)
    match env.profileScript with
    | some _ =>
        let details := details ++ env.dynamicDetails
        let raw_metrics := dictUpdate raw_metrics env.runtimeMetrics
        let final_score := (2 / 5) * env.staticScore + (3 / 5) * env.dynamicScore
        perfFinish env details raw_metrics final_score
    | none =>
        perfFinish env
          (details ++
            ["No profile script provided (set BENCH_PROFILE_SCRIPT). Using static analysis only."])
          raw_metrics env.staticScore

/- ------------------------------------------------------------------ -/
/- Helper lemmas                                                       -/
/- ------------------------------------------------------------------ -/

/-- Looking a key up after a map that rewrites only the values finds the
rewritten value. -/
theorem lookup_map_snd (g : ℚ → ℚ) (l : List (String × ℚ)) (k : String) :
    (l.map (fun p => (p.1, g p.2))).lookup k = (l.lookup k).map g := by
  induction l with
  | nil => rfl
  | cons hd tl ih =>
      obtain ⟨a, b⟩ := hd
      by_cases hk : k = a
      · subst hk
        simp [List.lookup]
      · simp [List.lookup, beq_false_of_ne hk, ih]

/-- The compression map of `normalize_scores_zscore` rewritten as a map on
the values only. -/
theorem compress_map_eq (l : List (String × ℚ)) :
    l.map (fun p => if 10 < p.2 then (p.1, 10 + (p.2 - 10) * (3 / 10)) else p)
      = l.map (fun p => (p.1, compressVal p.2)) := by
  refine congrArg l.map (funext fun p => ?_)
  by_cases h : 10 < p.2 <;> simp [h, compressVal]

/-- Looking a key up after the compression map of `normalize_scores_zscore`
compresses the value found. -/
theorem lookup_compress_map (l : List (String × ℚ)) (k : String) (v : ℚ)
    (h : l.lookup k = some v) :
    (l.map (fun p => if 10 < p.2 then (p.1, 10 + (p.2 - 10) * (3 / 10)) else p)).lookup k
      = some (if 10 < v then 10 + (v - 10) * (3 / 10) else v) := by
  rw [compress_map_eq, lookup_map_snd compressVal, h]
  rfl

/-- Per-key characterization of `normalize_scores_zscore`: the value at key
`k` is compressed exactly when the dict has at least two entries, its maximum
exceeds 15, and the value itself exceeds 10. -/
theorem normalize_lookup_char (scores : List (String × ℚ)) (k : String)
    (v : ℚ) (h : scores.lookup k = some v) :
    (normalize_scores_zscore scores).lookup k
      = some (if 2 ≤ scores.length ∧ 15 < maxVal scores ∧ 10 < v then
          10 + (v - 10) * (3 / 10) else v) := by
  unfold normalize_scores_zscore
  by_cases hlen : scores.length < 2
  · have : ¬ (2 ≤ scores.length ∧ 15 < maxVal scores ∧ 10 < v) := by
      intro hc
      exact absurd hc.1 (by omega)
    simp [hlen, this, h]
  · by_cases hmax : 15 < maxVal scores
    · have h2 : 2 ≤ scores.length := by omega
      by_cases hv : 10 < v
      · simp only [if_neg hlen, if_pos hmax]
        rw [lookup_compress_map scores k v h]
        simp [h2, hmax, hv]
      · simp only [if_neg hlen, if_pos hmax]
        rw [lookup_compress_map scores k v h]
        simp [hv]
    · have : ¬ (2 ≤ scores.length ∧ 15 < maxVal scores ∧ 10 < v) := by
        intro hc
        exact absurd hc.2.1 hmax
      simp [hlen, hmax, this, h]

/-- The identity cases of `normalize_scores_zscore`. -/
theorem normalize_identity (scores : List (String × ℚ))
    (h : scores.length < 2 ∨ maxVal scores ≤ 15) :
    normalize_scores_zscore scores = scores := by
  unfold normalize_scores_zscore
  rcases h with h | h
  · simp [h]
  · by_cases hlen : scores.length < 2
    · simp [hlen]
    · simp [hlen, not_lt.mpr h]

/-- Unfolding the compare totals fold into a sum, with an arbitrary starting
accumulator. -/
theorem compareTotals_fold (names : List String)
    (weights norm1 norm2 : List (String × ℚ)) (a b : ℚ) :
    names.foldl
      (fun acc name =>
        let weight := lookupD weights name 1
        (acc.1 + lookupD norm1 name 0 * weight,
         acc.2 + lookupD norm2 name 0 * weight))
      (a, b)
      = (a + weightedTotal norm1 weights names,
         b + weightedTotal norm2 weights names) := by
  induction names generalizing a b with
  | nil => simp [weightedTotal]
  | cons hd tl ih =>
      simp only [List.foldl_cons, ih]
      simp [weightedTotal, List.map_cons, List.sum_cons]
      constructor <;> ring

/- ================================================================== -/
/- Claim theorems                                                      -/
/- ================================================================== -/

/-- C1 (counterexample): `normalize_scores_zscore` does not standardize the
scores as z-scores with extreme values clipped.  At the concrete raw-score
dict `{a: 0, b: 20}` the function returns `{a: 0, b: 13}`, which is neither a
clipped standardization nor a winsorization of the input around its mean. -/
theorem c1_counterexample_not_zscore :
    ¬ IsZScoreClippedOf [("a", 0), ("b", 20)]
        (normalize_scores_zscore [("a", 0), ("b", 20)]) := by
  have hnorm : normalize_scores_zscore [("a", 0), ("b", 20)]
      = [("a", 0), ("b", 13)] := by
    norm_num [normalize_scores_zscore, maxVal, List.foldl]
  rw [hnorm]
  have hμ : listMean
      (List.map (fun q => q.2) [(("a" : String), (0 : ℚ)), ("b", 20)]) = 10 := by
    norm_num [listMean, List.map]
  intro hcontra
  rcases hcontra with ⟨σ, clip, hσ, hclip, heq⟩ | ⟨b, hb, heq⟩
  · rw [hμ] at heq
    have ha : (0 : ℚ) = clampQ (-clip) clip ((0 - 10) / σ) :=
      congrArg (fun l => l.headI.2) heq
    simp only [clampQ] at ha
    have hneg : ((0 : ℚ) - 10) / σ < 0 := div_neg_of_neg_of_pos (by norm_num) hσ
    have h1 : min clip (((0 : ℚ) - 10) / σ) < 0 :=
      lt_of_le_of_lt (min_le_right _ _) hneg
    have h2 : max (-clip) (min clip (((0 : ℚ) - 10) / σ)) < 0 :=
      max_lt (by linarith) h1
    rw [← ha] at h2
    exact lt_irrefl 0 h2
  · rw [hμ] at heq
    have ha : (0 : ℚ) = clampQ (10 - b) (10 + b) 0 :=
      congrArg (fun l => l.headI.2) heq
    have hb2 : (13 : ℚ) = clampQ (10 - b) (10 + b) 20 :=
      congrArg (fun l => l.tail.headI.2) heq
    simp only [clampQ] at ha hb2
    have hble : 10 - b ≤ (0 : ℚ) := by
      by_contra hpos
      push_neg at hpos
      have h2 : (0 : ℚ) < max (10 - b) (min (10 + b) 0) :=
        lt_of_lt_of_le hpos (le_max_left _ _)
      rw [← ha] at h2
      exact lt_irrefl 0 h2
    have h20 : (20 : ℚ) ≤ 10 + b := by linarith
    rw [min_eq_right h20] at hb2
    rw [max_eq_right (by linarith : (10 : ℚ) - b ≤ 20)] at hb2
    norm_num at hb2

/-- C1 (amended): the `compare` command passes both codebases' raw score
dicts through `normalize_scores_zscore` before applying the weights, and this
normalization is not z-score standardization: it returns every value
unchanged unless the dict has at least two entries, its maximum value exceeds
15.0, and the value exceeds 10.0, in which case the value is compressed to
`10.0 + (value - 10.0) * 0.3`. -/
theorem c1_amended_normalize_before_weights
    (names : List String) (weights raw1 raw2 : List (String × ℚ))
    (k : String) (v : ℚ) (h : raw1.lookup k = some v) :
    (normalize_scores_zscore raw1).lookup k
        = some (if 2 ≤ raw1.length ∧ 15 < maxVal raw1 ∧ 10 < v then
            10 + (v - 10) * (3 / 10) else v) ∧
    compareScores names weights raw1 raw2
        = compareTotals names weights (normalize_scores_zscore raw1)
            (normalize_scores_zscore raw2) := by
  exact ⟨normalize_lookup_char raw1 k v h, rfl⟩

/-- C1 (witness): instantiation of the amended claim at the dict
`{a: 0, b: 20}`, where the maximum 20 exceeds 15 and the value 20 is
compressed to 13. -/
theorem c1_witness :
    (normalize_scores_zscore [("a", 0), ("b", 20)]).lookup "b" = some 13 := by
  have h := c1_amended_normalize_before_weights ["Readability"] []
    [("a", 0), ("b", 20)] [] "b" 20 (by rfl)
  refine h.1.trans ?_
  have hmax : maxVal [(("a" : String), (0 : ℚ)), ("b", 20)] = 20 := by
    unfold maxVal
    norm_num
  rw [hmax]
  norm_num

/-- C3: `get_codebase_size_bucket` classifies a codebase by its total
non-blank line count over the readable Python files: "small" exactly below
100 lines, "medium" exactly from 100 up to (excluding) 1000, "large"
otherwise, and the result is always one of the three strings. -/
theorem c3_size_bucket (files : List SizeFile) :
    (get_codebase_size_bucket files = "small" ↔ totalLoc files < 100) ∧
    (get_codebase_size_bucket files = "medium" ↔
      100 ≤ totalLoc files ∧ totalLoc files < 1000) ∧
    (get_codebase_size_bucket files = "large" ↔ 1000 ≤ totalLoc files) ∧
    (get_codebase_size_bucket files = "small" ∨
     get_codebase_size_bucket files = "medium" ∨
     get_codebase_size_bucket files = "large") := by
  unfold get_codebase_size_bucket
  by_cases h1 : totalLoc files < 100
  · simp [h1]
    omega
  · by_cases h2 : totalLoc files < 1000
    · simp [h1, h2]
      omega
    · simp [h1, h2]
      omega

/-- C4: each codebase's total in `compare` is the sum, over the benchmarks
that were run, of that benchmark's normalized score times the user-supplied
weight, where a benchmark absent from the weights dict gets weight 1.0. -/
theorem c4_weighted_totals (names : List String)
    (weights raw1 raw2 : List (String × ℚ)) :
    compareScores names weights raw1 raw2
      = (weightedTotal (normalize_scores_zscore raw1) weights names,
         weightedTotal (normalize_scores_zscore raw2) weights names) := by
  unfold compareScores compareTotals
  rw [compareTotals_fold]
  simp

/-- C7 (counterexample): the registered built-in benchmark module list does
not have twelve members. -/
theorem c7_counterexample_not_twelve : ¬ (BUILT_IN_MODULES.length = 12) := by
  decide

/-- C7 (amended): the set of registered built-in benchmark modules iterated
by the orchestrator has exactly ten members (all distinct). -/
theorem c7_amended_ten_modules :
    BUILT_IN_MODULES.length = 10 ∧ BUILT_IN_MODULES.Nodup := by
  decide

/-- C8: a `BenchmarkResult` behaves as the (score, details) pair: whatever
`raw_metrics` and `confidence_interval` it is constructed with, tuple
unpacking yields exactly its score followed by its details, and construction
without a confidence interval defaults `confidence_interval` to the
degenerate pair `(score, score)`. -/
theorem c8_result_pair (score : ℚ) (details : List String)
    (raw_metrics : Option (List (String × MetricValue)))
    (ci : Option (ℚ × ℚ)) :
    (BenchmarkResult.make score details raw_metrics ci).toPair
        = (score, details) ∧
    (BenchmarkResult.make score details raw_metrics none).confidence_interval
        = (score, score) := by
  exact ⟨rfl, rfl⟩

/-- C9: `normalize_scores_zscore` never increases any score: each output
value is at most the input value at the same key, and equals it whenever the
input value is at most 10; moreover the function is the identity whenever the
dict has fewer than two entries or its maximum value is at most 15. -/
theorem c9_never_increases (scores : List (String × ℚ)) (k : String) (v : ℚ)
    (h : scores.lookup k = some v) :
    (∃ w, (normalize_scores_zscore scores).lookup k = some w ∧
      w ≤ v ∧ (v ≤ 10 → w = v)) ∧
    (scores.length < 2 ∨ maxVal scores ≤ 15 →
      normalize_scores_zscore scores = scores) := by
  constructor
  · refine ⟨_, normalize_lookup_char scores k v h, ?_, ?_⟩
    · by_cases hc : 2 ≤ scores.length ∧ 15 < maxVal scores ∧ 10 < v
      · simp only [if_pos hc]
        have hv := hc.2.2
        linarith
      · simp [hc]
    · intro hv
      have hc : ¬ (2 ≤ scores.length ∧ 15 < maxVal scores ∧ 10 < v) := by
        intro hcontra
        exact absurd hv (not_le.mpr hcontra.2.2)
      simp [hc]
  · exact normalize_identity scores

/-- C9 (witness): instantiation at the singleton dict `{a: 9}`, which has
fewer than two entries, so the function is the identity and the looked-up
value is unchanged. -/
theorem c9_witness :
    ([(("a" : String), (9 : ℚ))].lookup "a" = some 9) ∧
    ((∃ w, (normalize_scores_zscore [("a", 9)]).lookup "a" = some w ∧
        w ≤ 9 ∧ ((9 : ℚ) ≤ 10 → w = 9)) ∧
      (([(("a" : String), (9 : ℚ))].length < 2 ∨
          maxVal [("a", 9)] ≤ 15) →
        normalize_scores_zscore [("a", 9)] = [("a", 9)])) := by
  refine ⟨by rfl, ?_⟩
  exact c9_never_increases [("a", 9)] "a" 9 (by rfl)

/-- Clamping into the unit-to-ten interval is bounded. -/
theorem clamp01 (x : ℚ) : 0 ≤ min 10 (max 0 x) ∧ min 10 (max 0 x) ≤ 10 :=
  ⟨le_min (by norm_num) (le_max_left 0 x), min_le_left _ _⟩

/-- Component characterization of one robustness node step. -/
theorem rbNodeStep_char (path : String) (acc : RbAcc) (n : AstNode) :
    (rbNodeStep path acc n).total_handlers
        = acc.total_handlers + nodeHandlerCount n ∧
    (rbNodeStep path acc n).good_handlers
        = acc.good_handlers + nodeGoodCount n ∧
    (rbNodeStep path acc n).uses_logging
        = (acc.uses_logging || nodeImportsLogging n) := by
  cases n with
  | importNode names =>
      simp only [rbNodeStep, nodeHandlerCount, nodeGoodCount, handlerOf,
        nodeImportsLogging]
      by_cases hb : "logging" ∈ names
      · simp [hb]
      · simp [hb]
  | importFrom m =>
      simp only [rbNodeStep, nodeHandlerCount, nodeGoodCount, handlerOf,
        nodeImportsLogging]
      by_cases hb : (m == some "logging") = true
      · simp [hb]
      · simp only [Bool.not_eq_true] at hb
        simp [hb]
  | functionDef a b c =>
      simp [rbNodeStep, nodeHandlerCount, nodeGoodCount, handlerOf,
        nodeImportsLogging]
  | asyncFunctionDef a b c =>
      simp [rbNodeStep, nodeHandlerCount, nodeGoodCount, handlerOf,
        nodeImportsLogging]
  | classDef a b c =>
      simp [rbNodeStep, nodeHandlerCount, nodeGoodCount, handlerOf,
        nodeImportsLogging]
  | otherNode =>
      simp [rbNodeStep, nodeHandlerCount, nodeGoodCount, handlerOf,
        nodeImportsLogging]
  | exceptHandler lineno t =>
      cases t with
      | bare =>
          simp [rbNodeStep, nodeHandlerCount, nodeGoodCount, handlerOf,
            isGoodHandler, nodeImportsLogging]
      | nonName =>
          simp [rbNodeStep, nodeHandlerCount, nodeGoodCount, handlerOf,
            isGoodHandler, nodeImportsLogging]
      | nameId i =>
          by_cases hi : i = "Exception"
          · simp [rbNodeStep, nodeHandlerCount, nodeGoodCount, handlerOf,
              isGoodHandler, nodeImportsLogging, hi]
          · simp [rbNodeStep, nodeHandlerCount, nodeGoodCount, handlerOf,
              isGoodHandler, nodeImportsLogging, hi, beq_false_of_ne hi]

/-- The single AST walk of `_analyze_file_ast` computes the filter-based
handler counts and the logging flag. -/
theorem rb_fold_nodes (path : String) (nodes : List AstNode) (acc : RbAcc) :
    (nodes.foldl (rbNodeStep path) acc).total_handlers
        = acc.total_handlers + (nodes.filterMap handlerOf).length ∧
    (nodes.foldl (rbNodeStep path) acc).good_handlers
        = acc.good_handlers
            + ((nodes.filterMap handlerOf).filter isGoodHandler).length ∧
    (nodes.foldl (rbNodeStep path) acc).uses_logging
        = (acc.uses_logging || nodes.any nodeImportsLogging) := by
  induction nodes generalizing acc with
  | nil => simp
  | cons hd tl ih =>
      obtain ⟨iht, ihg, ihl⟩ := ih (rbNodeStep path acc hd)
      obtain ⟨st, sg, sl⟩ := rbNodeStep_char path acc hd
      refine ⟨?_, ?_, ?_⟩
      · rw [List.foldl_cons, iht, st]
        cases hh : handlerOf hd <;>
          simp [List.filterMap_cons, hh, nodeHandlerCount] <;> omega
      · rw [List.foldl_cons, ihg, sg]
        cases hh : handlerOf hd with
        | none => simp [List.filterMap_cons, hh, nodeGoodCount]
        | some et =>
            by_cases hgd : isGoodHandler et = true
            · simp [List.filterMap_cons, hh, nodeGoodCount, hgd]
              omega
            · simp [List.filterMap_cons, hh, nodeGoodCount, hgd]
      · rw [List.foldl_cons, ihl, sl]
        simp [Bool.or_assoc]

/-- The codebase-level robustness fold computes the codebase-level counts. -/
theorem rb_fold_files (files : List PyFile) (acc : RbAcc) :
    (files.foldl rbFileStep acc).total_handlers
        = acc.total_handlers + rbTotalOf files ∧
    (files.foldl rbFileStep acc).good_handlers
        = acc.good_handlers + rbGoodOf files ∧
    (files.foldl rbFileStep acc).uses_logging
        = (acc.uses_logging || rbUsesLoggingOf files) := by
  induction files generalizing acc with
  | nil => simp [rbTotalOf, rbGoodOf, rbUsesLoggingOf]
  | cons hd tl ih =>
      obtain ⟨iht, ihg, ihl⟩ := ih (rbFileStep acc hd)
      refine ⟨?_, ?_, ?_⟩ <;> rw [List.foldl_cons]
      · rw [iht]
        cases hd with
        | unparsed p => simp [rbFileStep, rbTotalOf]
        | parsed p t =>
            obtain ⟨ht, -, -⟩ := rb_fold_nodes p t.nodes ⟨false, 0, 0, []⟩
            simp only [_analyze_file_ast] at ht
            simp [rbFileStep, rbTotalOf, _analyze_file_ast, ht]
            omega
      · rw [ihg]
        cases hd with
        | unparsed p => simp [rbFileStep, rbGoodOf]
        | parsed p t =>
            obtain ⟨-, hg, -⟩ := rb_fold_nodes p t.nodes ⟨false, 0, 0, []⟩
            simp only [_analyze_file_ast] at hg
            simp [rbFileStep, rbGoodOf, _analyze_file_ast, hg]
            omega
      · rw [ihl]
        cases hd with
        | unparsed p => simp [rbFileStep, rbUsesLoggingOf]
        | parsed p t =>
            obtain ⟨-, -, hl⟩ := rb_fold_nodes p t.nodes ⟨false, 0, 0, []⟩
            simp only [_analyze_file_ast] at hl
            simp [rbFileStep, rbUsesLoggingOf, _analyze_file_ast, hl,
              Bool.or_assoc]

/-- Component characterization of one documentation entity step. -/
theorem docEntityStep_char (path : String) (acc : DocAcc) (n : AstNode) :
    (docEntityStep path acc n).total_entities
        = acc.total_entities + entTotalCount n ∧
    (docEntityStep path acc n).documented_entities
        = acc.documented_entities + entDocCount n ∧
    (docEntityStep path acc n).good_docstrings
        = acc.good_docstrings + entGoodCount n := by
  cases n with
  | functionDef a b c =>
      cases c <;>
        simp [docEntityStep, nodeEntity, entityDs, entTotalCount, entDocCount,
          entGoodCount]
  | asyncFunctionDef a b c =>
      cases c <;>
        simp [docEntityStep, nodeEntity, entityDs, entTotalCount, entDocCount,
          entGoodCount]
  | classDef a b c =>
      cases c <;>
        simp [docEntityStep, nodeEntity, entityDs, entTotalCount, entDocCount,
          entGoodCount]
  | importNode a =>
      simp [docEntityStep, nodeEntity, entityDs, entTotalCount, entDocCount,
        entGoodCount]
  | importFrom a =>
      simp [docEntityStep, nodeEntity, entityDs, entTotalCount, entDocCount,
        entGoodCount]
  | exceptHandler a b =>
      simp [docEntityStep, nodeEntity, entityDs, entTotalCount, entDocCount,
        entGoodCount]
  | otherNode =>
      simp [docEntityStep, nodeEntity, entityDs, entTotalCount, entDocCount,
        entGoodCount]

/-- The entity walk of `assess_documentation` computes the filter-based
entity counts. -/
theorem doc_fold_nodes (path : String) (nodes : List AstNode) (acc : DocAcc) :
    (nodes.foldl (docEntityStep path) acc).total_entities
        = acc.total_entities + (nodes.filterMap entityDs).length ∧
    (nodes.foldl (docEntityStep path) acc).documented_entities
        = acc.documented_entities
            + ((nodes.filterMap entityDs).filter (fun d => d.isSome)).length ∧
    (nodes.foldl (docEntityStep path) acc).good_docstrings
        = acc.good_docstrings
            + ((nodes.filterMap entityDs).filter (fun d =>
                match d with
                | some dd => _good_docstring dd
                | none => false)).length := by
  induction nodes generalizing acc with
  | nil => simp
  | cons hd tl ih =>
      obtain ⟨iht, ihd, ihg⟩ := ih (docEntityStep path acc hd)
      obtain ⟨st, sd, sg⟩ := docEntityStep_char path acc hd
      refine ⟨?_, ?_, ?_⟩
      · rw [List.foldl_cons, iht, st]
        cases hh : entityDs hd <;>
          simp [List.filterMap_cons, hh, entTotalCount] <;> omega
      · rw [List.foldl_cons, ihd, sd]
        cases hh : entityDs hd with
        | none => simp [List.filterMap_cons, hh, entDocCount]
        | some ds =>
            cases ds <;>
              simp [List.filterMap_cons, hh, entDocCount] <;> omega
      · rw [List.foldl_cons, ihg, sg]
        cases hh : entityDs hd with
        | none => simp [List.filterMap_cons, hh, entGoodCount]
        | some ds =>
            cases ds with
            | none => simp [List.filterMap_cons, hh, entGoodCount]
            | some d =>
                by_cases hgd : _good_docstring d = true
                · simp [List.filterMap_cons, hh, entGoodCount, hgd]
                  omega
                · simp [List.filterMap_cons, hh, entGoodCount, hgd]


/-- Component characterization of one documentation file step on a parsed
file. -/
theorem docFileStep_char (acc : DocAcc) (p : String) (t : PyModule) :
    (docFileStep acc (PyFile.parsed p t)).total_entities
        = acc.total_entities + (1 + (t.nodes.filterMap entityDs).length) ∧
    (docFileStep acc (PyFile.parsed p t)).documented_entities
        = acc.documented_entities + ((if t.docstring.isSome then 1 else 0)
            + ((t.nodes.filterMap entityDs).filter (fun d => d.isSome)).length) ∧
    (docFileStep acc (PyFile.parsed p t)).good_docstrings
        = acc.good_docstrings + ((match t.docstring with
            | some d => if _good_docstring d then 1 else 0
            | none => 0)
            + ((t.nodes.filterMap entityDs).filter (fun d =>
                match d with
                | some dd => _good_docstring dd
                | none => false)).length) := by
  cases hds : t.docstring with
  | some d =>
      refine ⟨?_, ?_, ?_⟩
      · simp only [docFileStep, hds]
        rw [(doc_fold_nodes p t.nodes _).1]
        simp
        omega
      · simp only [docFileStep, hds]
        rw [(doc_fold_nodes p t.nodes _).2.1]
        simp
        omega
      · simp only [docFileStep, hds]
        rw [(doc_fold_nodes p t.nodes _).2.2]
        by_cases hgd : _good_docstring d = true <;> simp [hgd] <;> omega
  | none =>
      refine ⟨?_, ?_, ?_⟩
      · simp only [docFileStep, hds]
        rw [(doc_fold_nodes p t.nodes _).1]
        simp
        omega
      · simp only [docFileStep, hds]
        rw [(doc_fold_nodes p t.nodes _).2.1]
        simp
      · simp only [docFileStep, hds]
        rw [(doc_fold_nodes p t.nodes _).2.2]
        simp

/-- The codebase-level documentation fold computes the codebase-level
counts. -/
theorem doc_fold_files (files : List PyFile) (acc : DocAcc) :
    (files.foldl docFileStep acc).total_entities
        = acc.total_entities + docTotalOf files ∧
    (files.foldl docFileStep acc).documented_entities
        = acc.documented_entities + docDocumentedOf files ∧
    (files.foldl docFileStep acc).good_docstrings
        = acc.good_docstrings + docGoodOf files := by
  induction files generalizing acc with
  | nil => simp [docTotalOf, docDocumentedOf, docGoodOf]
  | cons hd tl ih =>
      obtain ⟨iht, ihd, ihg⟩ := ih (docFileStep acc hd)
      refine ⟨?_, ?_, ?_⟩ <;> rw [List.foldl_cons]
      · rw [iht]
        cases hd with
        | unparsed p => simp [docFileStep, docTotalOf]
        | parsed p t =>
            rw [(docFileStep_char acc p t).1]
            simp [docTotalOf]
            omega
      · rw [ihd]
        cases hd with
        | unparsed p => simp [docFileStep, docDocumentedOf]
        | parsed p t =>
            rw [(docFileStep_char acc p t).2.1]
            simp [docDocumentedOf]
            omega
      · rw [ihg]
        cases hd with
        | unparsed p => simp [docFileStep, docGoodOf]
        | parsed p t =>
            rw [(docFileStep_char acc p t).2.2]
            simp [docGoodOf]
            omega

/- ================================================================== -/
/- Remaining claim theorems                                            -/
/- ================================================================== -/

/-- C2: the scores returned by `assess_readability`, `assess_documentation`
and `assess_robustness` always lie between 0.0 and 10.0 inclusive, for every
codebase view and every PEP8 violation count. -/
theorem c2_scores_bounded (rfiles : List RadFile) (pep8_errors : ℕ)
    (dfiles rofiles : List PyFile) :
    (0 ≤ (assess_readability rfiles pep8_errors).1 ∧
      (assess_readability rfiles pep8_errors).1 ≤ 10) ∧
    (0 ≤ (assess_documentation dfiles).1 ∧
      (assess_documentation dfiles).1 ≤ 10) ∧
    (0 ≤ (assess_robustness rofiles).1 ∧
      (assess_robustness rofiles).1 ≤ 10) := by
  refine ⟨?_, ?_, ?_⟩
  · simp only [assess_readability]
    split
    · norm_num
    · exact clamp01 _
  · simp only [assess_documentation]
    split
    · norm_num
    · split
      · norm_num
      · exact clamp01 _
  · simp only [assess_robustness]
    split
    · norm_num
    · split
      · split <;> norm_num
      · exact clamp01 _

/-- C5: on a codebase with at least one Python file, `assess_robustness`
scores 5.0 (logging imported) or 2.0 (not imported) when no exception handler
exists, and otherwise scores the specific-handler fraction times 8.0 plus a
2.0 logging bonus, clamped to [0, 10]; the handler counts are those of the
single per-file AST walks. -/
theorem c5_robustness_score (files : List PyFile) (h : files ≠ []) :
    (rbTotalOf files = 0 →
      (assess_robustness files).1
        = if rbUsesLoggingOf files then 5 else 2) ∧
    (0 < rbTotalOf files →
      (assess_robustness files).1
        = min 10 (max 0 ((rbGoodOf files : ℚ) / (rbTotalOf files : ℚ) * 8
            + if rbUsesLoggingOf files then 2 else 0))) := by
  have hne : files.isEmpty = false := by
    cases files
    · exact absurd rfl h
    · rfl
  obtain ⟨ht, hg, hl⟩ := rb_fold_files files ⟨false, 0, 0, []⟩
  simp only [Nat.zero_add] at ht hg
  simp only [Bool.false_or] at hl
  constructor
  · intro h0
    simp only [assess_robustness, hne, Bool.false_eq_true, if_false]
    rw [if_pos (ht.trans h0)]
    simp only [hl]
  · intro h0
    have h0' : ¬ ((files.foldl rbFileStep ⟨false, 0, 0, []⟩).total_handlers = 0) := by
      rw [ht]
      omega
    simp only [assess_robustness, hne, Bool.false_eq_true, if_false]
    rw [if_neg h0']
    simp only [ht, hg, hl]
    cases hL : rbUsesLoggingOf files <;> simp [hL]

/-- C5 (witness): a codebase of one parsed file with a single specific
handler (`except ValueError`) and no logging import scores 8.0. -/
theorem c5_witness :
    ([PyFile.parsed "f"
        ⟨none, [AstNode.exceptHandler 1 (ExceptType.nameId "ValueError")]⟩]
      ≠ ([] : List PyFile)) ∧
    0 < rbTotalOf
        [PyFile.parsed "f"
          ⟨none, [AstNode.exceptHandler 1 (ExceptType.nameId "ValueError")]⟩] ∧
    (assess_robustness
        [PyFile.parsed "f"
          ⟨none, [AstNode.exceptHandler 1 (ExceptType.nameId "ValueError")]⟩]).1
      = 8 := by
  refine ⟨by simp, by decide, ?_⟩
  have h := (c5_robustness_score
    [PyFile.parsed "f"
      ⟨none, [AstNode.exceptHandler 1 (ExceptType.nameId "ValueError")]⟩]
    (by simp)).2 (by decide)
  rw [h]
  have h1 : rbTotalOf
      [PyFile.parsed "f"
        ⟨none, [AstNode.exceptHandler 1 (ExceptType.nameId "ValueError")]⟩] = 1 := by
    decide
  have h2 : rbGoodOf
      [PyFile.parsed "f"
        ⟨none, [AstNode.exceptHandler 1 (ExceptType.nameId "ValueError")]⟩] = 1 := by
    decide
  have h3 : rbUsesLoggingOf
      [PyFile.parsed "f"
        ⟨none, [AstNode.exceptHandler 1 (ExceptType.nameId "ValueError")]⟩] = false := by
    decide
  rw [h1, h2, h3]
  norm_num

/-- C6: on a codebase with a parseable Python file (hence at least one
documentable entity), `assess_documentation` returns the clamped average of
the coverage component (documented fraction times 100, divided by 10) and the
quality component (good fraction of present docstrings, times 10). -/
theorem c6_documentation_score (files : List PyFile)
    (h1 : ∃ p t, PyFile.parsed p t ∈ files)
    (h2 : 0 < docTotalOf files) :
    (assess_documentation files).1
      = min 10 (max 0 ((((docDocumentedOf files : ℚ) / (docTotalOf files : ℚ)
            * 100) / 10
          + (if docDocumentedOf files = 0 then 0
             else (docGoodOf files : ℚ) / (docDocumentedOf files : ℚ)) * 10)
          / 2)) := by
  have hne : files.isEmpty = false := by
    obtain ⟨p, t, hm⟩ := h1
    cases files
    · simp at hm
    · rfl
  obtain ⟨ht, hd, hg⟩ := doc_fold_files files ⟨0, 0, 0, []⟩
  simp only [Nat.zero_add] at ht hd hg
  have h0 : ¬ ((files.foldl docFileStep ⟨0, 0, 0, []⟩).total_entities = 0) := by
    rw [ht]
    omega
  simp only [assess_documentation, hne, Bool.false_eq_true, if_false]
  rw [if_neg h0]
  simp only [ht, hd, hg]

/-- C6 (witness): a codebase of one parsed file whose module docstring is
present but fails the quality heuristic scores (100%/10 + 0*10)/2 = 5. -/
theorem c6_witness :
    (∃ p t, PyFile.parsed p t ∈ [PyFile.parsed "m" ⟨some "short", []⟩]) ∧
    0 < docTotalOf [PyFile.parsed "m" ⟨some "short", []⟩] ∧
    (assess_documentation [PyFile.parsed "m" ⟨some "short", []⟩]).1 = 5 := by
  refine ⟨⟨"m", ⟨some "short", []⟩, by simp⟩, by decide, ?_⟩
  have h := c6_documentation_score [PyFile.parsed "m" ⟨some "short", []⟩]
    ⟨"m", ⟨some "short", []⟩, by simp⟩ (by decide)
  rw [h]
  have h1 : docTotalOf [PyFile.parsed "m" ⟨some "short", []⟩] = 1 := by decide
  have h2 : docDocumentedOf [PyFile.parsed "m" ⟨some "short", []⟩] = 1 := by
    decide
  have h3 : docGoodOf [PyFile.parsed "m" ⟨some "short", []⟩] = 0 := by decide
  rw [h1, h2, h3]
  norm_num

/-- C10: on a codebase with no Python files, `assess_readability`,
`assess_documentation` and `assess_robustness` each return exactly
`(0.0, ["No Python files found."])`, and `assess_performance` returns a
`BenchmarkResult` with score 0.0 and the same details, whatever the external
environment and the PEP8 count are. -/
theorem c10_empty_codebase (pep8_errors : ℕ) (env : PerfEnv) :
    assess_readability [] pep8_errors = (0, ["No Python files found."]) ∧
    assess_documentation [] = (0, ["No Python files found."]) ∧
    assess_robustness [] = (0, ["No Python files found."]) ∧
    (assess_performance env []).score = 0 ∧
    (assess_performance env []).details = ["No Python files found."] := by
  exact ⟨rfl, rfl, rfl, rfl, rfl⟩
